import Mathlib

/-!
Verification of the Shopify cohort-analysis engine (`src/app.py`).

A shallow embedding of the cohort analytics pipeline: normalization of raw
CSV rows, filtering, the first-purchase resolver, the two cohort policies and
the metrics aggregator, translated from the pandas source.  Money is `ℚ`
(pandas floats hold exact decimals here), missing values (`NaN`/`NaT`) are
`Option`, dataframes are `List`s of row structures.
-/

namespace Cohort

/-- A calendar date as parsed by `pd.to_datetime` from `YYYY-MM-DD` text. -/
structure Date where
  year : Nat
  month : Nat
  dom : Nat
deriving DecidableEq, Repr

/-- Lexicographic key of a date: chronological order on (year, month, day). -/
def dateKey (d : Date) : Nat ×ₗ (Nat ×ₗ Nat) :=
  toLex (d.year, toLex (d.month, d.dom))

theorem dateKey_injective : Function.Injective dateKey := by
  intro a b h
  cases a; cases b
  simp only [dateKey, toLex, Equiv.coe_fn_mk, Prod.mk.injEq] at h
  obtain ⟨h1, h2, h3⟩ := h
  simp_all

instance : LinearOrder Date := LinearOrder.lift' dateKey dateKey_injective

theorem Date.le_iff_dateKey {a b : Date} : a ≤ b ↔ dateKey a ≤ dateKey b := Iff.rfl

/-- A raw CSV row as handed to the pipeline: every field is text and may be
missing (`NaN` after `pd.read_csv`). -/
structure RawRow where
  customer_email : Option String
  order_id : Option String
  day : Option String
  product_title : Option String
  total_sales : Option String
deriving DecidableEq, Repr

/-- Rational addition written through `mkRat` (definitionally well-behaved
for evaluation); `qAdd_eq_add` identifies it with `+` on `ℚ`. -/
def qAdd (a b : ℚ) : ℚ := mkRat (a.num * b.den + b.num * a.den) (a.den * b.den)

/-- Rational negation through `mkRat`; `qNeg_eq_neg` identifies it with
negation on `ℚ`. -/
def qNeg (a : ℚ) : ℚ := mkRat (-a.num) a.den

/-- Division of a rational by a natural count through `mkRat` (zero
denominator yields `0`, as with `/` on `ℚ`); `qDivNat_eq_div` identifies it
with `/`. -/
def qDivNat (a : ℚ) (n : ℕ) : ℚ := mkRat a.num (a.den * n)

/-- Quotient of two natural counts as a rational; `qOfNats_eq_div`
identifies it with `/` on `ℚ`. -/
def qOfNats (a b : ℕ) : ℚ := mkRat a b

/-- Sum of a list of rationals via `qAdd`; `qSum_eq_sum` identifies it with
`List.sum`. -/
def qSum (l : List ℚ) : ℚ := l.foldr qAdd 0

theorem qAdd_eq_add (a b : ℚ) : qAdd a b = a + b := by
  unfold qAdd
  rw [Rat.mkRat_eq_div]
  push_cast
  have ha : ((a.den : ℚ)) ≠ 0 := by
    exact_mod_cast a.den_nz
  have hb : ((b.den : ℚ)) ≠ 0 := by
    exact_mod_cast b.den_nz
  conv_rhs => rw [← Rat.num_div_den a, ← Rat.num_div_den b]
  rw [div_add_div _ _ ha hb]
  ring

theorem qNeg_eq_neg (a : ℚ) : qNeg a = -a := by
  unfold qNeg
  rw [Rat.mkRat_eq_div]
  push_cast
  rw [neg_div, Rat.num_div_den]

theorem qDivNat_eq_div (a : ℚ) (n : ℕ) : qDivNat a n = a / (n : ℚ) := by
  unfold qDivNat
  rw [Rat.mkRat_eq_div]
  push_cast
  conv_rhs => rw [← Rat.num_div_den a]
  rw [div_div]

theorem qOfNats_eq_div (a b : ℕ) : qOfNats a b = (a : ℚ) / (b : ℚ) := by
  unfold qOfNats
  rw [Rat.mkRat_eq_div]
  push_cast
  rfl

theorem qSum_eq_sum (l : List ℚ) : qSum l = l.sum := by
  induction l with
  | nil => rfl
  | cons x xs ih =>
    rw [qSum, List.foldr_cons, qAdd_eq_add, List.sum_cons]
    rw [show List.foldr qAdd 0 xs = qSum xs from rfl, ih]

theorem qSum_nil : qSum [] = 0 := rfl

/-- Split a character list at every occurrence of the separator `c`
(the pieces never contain `c`; `n` separators yield `n + 1` pieces). -/
def splitOnChar (c : Char) : List Char → List (List Char)
  | [] => [[]]
  | x :: xs =>
    match splitOnChar c xs with
    | [] => if x = c then [[], []] else [[x]]
    | h :: t => if x = c then [] :: h :: t else (x :: h) :: t

/-- Read a nonempty run of decimal digits as a natural number. -/
def digitsToNat? (l : List Char) : Option Nat :=
  match l with
  | [] => none
  | _ =>
    l.foldl
      (fun acc ch => acc.bind (fun n => if ch.isDigit then some (n * 10 + (ch.toNat - 48)) else none))
      (some 0)

/-- Model of `pd.to_numeric(x, errors='coerce')` on one text cell: an optional
sign, digits, and an optional fractional part; anything else coerces to
missing. -/
def parseNumeric (s : String) : Option ℚ :=
  let core : List Char → Option ℚ := fun body =>
    match splitOnChar (Char.ofNat 46) body with
    | [intPart] => (digitsToNat? intPart).map (fun n => mkRat n 1)
    | [intPart, fracPart] =>
      match digitsToNat? intPart, digitsToNat? fracPart with
      | some a, some b =>
        some (mkRat (a * 10 ^ fracPart.length + b) (10 ^ fracPart.length))
      | _, _ => none
    | _ => none
  match s.data with
  | ch :: rest => if ch = Char.ofNat 45 then (core rest).map qNeg else core s.data
  | [] => none

/-- Model of `pd.to_datetime(x, errors='coerce')` on one text cell, for the
`YYYY-MM-DD` layout the uploads use; invalid cells coerce to `NaT`. -/
def parseDate (s : String) : Option Date :=
  match splitOnChar (Char.ofNat 45) s.data with
  | [y, m, d] =>
    match digitsToNat? y, digitsToNat? m, digitsToNat? d with
    | some yn, some mn, some dn =>
      if 1 ≤ mn ∧ mn ≤ 12 ∧ 1 ≤ dn ∧ dn ≤ 31 then some ⟨yn, mn, dn⟩ else none
    | _, _, _ => none
  | _ => none

/-- A normalized row: `total_sales` after `pd.to_numeric(..., errors='coerce')`
and `day` after `pd.to_datetime(..., errors='coerce')` (lines 70 and 76). -/
structure NRow where
  customer_email : Option String
  order_id : Option String
  day : Option Date
  product_title : Option String
  total_sales : Option ℚ
deriving DecidableEq, Repr

/-- Normalization of one raw row (lines 70 and 76 of `app.py`). -/
def toNRow (r : RawRow) : NRow :=
  { customer_email := r.customer_email
    order_id := r.order_id
    day := r.day.bind parseDate
    product_title := r.product_title
    total_sales := r.total_sales.bind parseNumeric }

/-- Python compares strings by code points; model string order on the
character list. -/
def strKey (s : String) : List Char := s.data

/-- Sort key of an optional value with pandas `na_position='last'`:
missing sorts after every present value. -/
def optKey (o : Option String) : Bool ×ₗ List Char := toLex (o.isNone, strKey (o.getD ""))

/-- Sort key of an optional date, `NaT` last. -/
def optDayKey (o : Option Date) : Bool ×ₗ Date := toLex (o.isNone, o.getD ⟨0, 0, 0⟩)

/-- Sort key of an optional product title under `ascending=False`
(descending), `NaN` still last. -/
def titleKey (o : Option String) : Bool ×ₗ (List Char)ᵒᵈ :=
  toLex (o.isNone, OrderDual.toDual (strKey (o.getD "")))

/-- The full sort key of line 82:
`sort_values(by=['customer_email', 'day', 'product_title'],
ascending=[True, True, False])`. -/
def nrowKey (r : NRow) : (Bool ×ₗ List Char) ×ₗ ((Bool ×ₗ Date) ×ₗ (Bool ×ₗ (List Char)ᵒᵈ)) :=
  toLex (optKey r.customer_email, toLex (optDayKey r.day, titleKey r.product_title))

/-- Row order used by the sort of line 82. -/
def nrowLe (a b : NRow) : Prop := nrowKey a ≤ nrowKey b

instance : DecidableRel nrowLe := fun a b =>
  inferInstanceAs (Decidable (nrowKey a ≤ nrowKey b))

instance : IsTotal NRow nrowLe := ⟨fun a b => le_total (nrowKey a) (nrowKey b)⟩

instance : IsTrans NRow nrowLe := ⟨fun _ _ _ hab hbc => le_trans hab hbc⟩

/-- Lines 70–79: coerce `total_sales`, drop rows with `total_sales == 0` and
missing `product_title`, coerce `day`, drop rows with invalid dates.
(`NaN == 0` is false in pandas, so rows with unparsable sales survive.) -/
def cleanRows (input : List RawRow) : List NRow :=
  (((input.map toNRow).filter
      (fun r => !(decide (r.total_sales = some 0) && r.product_title.isNone))).filter
    (fun r => r.day.isSome))

/-- Line 82: the sorted cleaned dataset. -/
def sortedRows (input : List RawRow) : List NRow :=
  List.insertionSort nrowLe (cleanRows input)

/-- The rows of customer `e`, in dataframe order (one `groupby` group). -/
def groupOf (df : List NRow) (e : String) : List NRow :=
  df.filter (fun r => decide (r.customer_email = some e))

/-- `groupby('customer_email').first()` on the `order_id` column: the first
NON-MISSING value of the customer's group (pandas `first` skips NA). -/
def firstOrderIdOf (df : List NRow) (e : String) : Option String :=
  (groupOf df e).findSome? (·.order_id)

/-- `groupby('customer_email').first()` on the `day` column. -/
def firstPurchaseDayOf (df : List NRow) (e : String) : Option Date :=
  (groupOf df e).findSome? (·.day)

/-- `groupby('customer_email').first()` on the `product_title` column. -/
def firstProductOf (df : List NRow) (e : String) : Option String :=
  (groupOf df e).findSome? (·.product_title)

/-- A processed row: the cleaned row plus the merged first-purchase anchor
(lines 85–99) and the `purchase_month` column of line 105. -/
structure PRow extends NRow where
  first_order_id : Option String
  first_purchase_day : Option Date
  first_product : Option String
  is_first_purchase : Bool
  purchase_month : Option (Nat × Nat)
deriving DecidableEq, Repr

/-- Pandas `==` between two nullable cells: `NaN` compares unequal to
everything, itself included (line 95). -/
def optEqB (a b : Option String) : Bool :=
  match a, b with
  | some x, some y => decide (x = y)
  | _, _ => false

/-- Lines 85–95: join the per-customer anchor (`groupby.first` over the
sorted frame) back onto one row and mark `is_first_purchase`.  A row with a
missing `customer_email` belongs to no group and the left-merge leaves its
anchor fields missing. -/
def attachAnchor (s : List NRow) (r : NRow) : PRow :=
  match r.customer_email with
  | none =>
    { toNRow := r, first_order_id := none, first_purchase_day := none,
      first_product := none, is_first_purchase := optEqB r.order_id none,
      purchase_month := none }
  | some e =>
    { toNRow := r
      first_order_id := firstOrderIdOf s e
      first_purchase_day := firstPurchaseDayOf s e
      first_product := firstProductOf s e
      is_first_purchase := optEqB r.order_id (firstOrderIdOf s e)
      purchase_month := none }

/-- `Series.ffill`: carry the last seen present value forward. -/
def ffillO (acc : Option α) : List (Option α) → List (Option α)
  | [] => []
  | o :: rest =>
    match o with
    | some x => some x :: ffillO (some x) rest
    | none => acc :: ffillO acc rest

/-- `Series.bfill`: carry the next seen present value backward. -/
def bfillO (l : List (Option α)) : List (Option α) :=
  (ffillO none l.reverse).reverse

/-- Lines 98–99: `.ffill().bfill()` on one whole column — note this runs over
the entire frame, not per customer group. -/
def fillCol (l : List (Option α)) : List (Option α) :=
  bfillO (ffillO none l)

/-- Lines 98–99 applied to the two anchor columns of the merged frame. -/
def setFills (df : List PRow) : List PRow :=
  let days := fillCol (df.map (·.first_purchase_day))
  let prods := fillCol (df.map (·.first_product))
  (df.zip (days.zip prods)).map
    (fun p => { p.1 with first_purchase_day := p.2.1, first_product := p.2.2 })

/-- `process_combined_data` (lines 68–110): normalize, filter, sort, resolve
and merge the first-purchase anchor, fill, and add `purchase_month`. -/
def processCombined (input : List RawRow) : List PRow :=
  let s := sortedRows input
  let merged := s.map (attachAnchor s)
  (setFills merged).map
    (fun r => { r with purchase_month := r.day.map (fun d => (d.year, d.month)) })

/-- Line 114: `groupby('customer_email')['day'].transform('min')` for one
customer — the minimum `day` over the customer's rows, skipping `NaT`. -/
def minDayOf (df : List PRow) (e : String) : Option Date :=
  ((df.filter (fun r => decide (r.customer_email = some e))).filterMap (·.day)).min?

/-- `generate_monthly_cohort` (lines 113–117): overwrite `first_purchase_day`
with the per-customer minimum `day`; rows with a missing email are in no
group and get `NaT`.  (The `cohort` column it also writes is recomputed from
`first_purchase_day` inside `generate_reports_for_cohort`, line 132, which is
where this model derives it.) -/
def generateMonthlyCohort (df : List PRow) : List PRow :=
  df.map fun r =>
    { r with
      first_purchase_day :=
        match r.customer_email with
        | none => none
        | some e => minDayOf df e }

/-- Sort key of line 122: `sort_values(by=['customer_email', 'day'])`. -/
def prowKey2 (r : PRow) : (Bool ×ₗ List Char) ×ₗ (Bool ×ₗ Date) :=
  toLex (optKey r.customer_email, optDayKey r.day)

/-- Row order of the sort at line 122. -/
def prowLe2 (a b : PRow) : Prop := prowKey2 a ≤ prowKey2 b

instance : DecidableRel prowLe2 := fun a b =>
  inferInstanceAs (Decidable (prowKey2 a ≤ prowKey2 b))

instance : IsTotal PRow prowLe2 := ⟨fun a b => le_total (prowKey2 a) (prowKey2 b)⟩

instance : IsTrans PRow prowLe2 := ⟨fun _ _ _ hab hbc => le_trans hab hbc⟩

/-- Python `str(x)` as applied by `.astype(str)` to a nullable string cell:
`NaN` prints as the literal string `nan`. -/
def optStr : Option String → String
  | none => "nan"
  | some s => s

/-- `generate_first_product_cohort` (lines 120–126): drop rows with a missing
`customer_email`, sort by email and day, and cast `first_product` to string
(`NaN` becoming `"nan"`).  The `cohort` column it writes equals that string
and is recomputed identically at line 135. -/
def generateFirstProductCohort (df : List PRow) : List PRow :=
  (List.insertionSort prowLe2 (df.filter (fun r => r.customer_email.isSome))).map
    (fun r => { r with first_product := some (optStr r.first_product) })

/-- Line 140: `months_since_first_purchase`, computed from calendar fields;
`NaT` on either side propagates to a missing offset. -/
def monthsSince (day fd : Option Date) : Option Int :=
  match day, fd with
  | some d, some f => some (((d.year : Int) - f.year) * 12 + ((d.month : Int) - f.month))
  | _, _ => none

/-- A cohort-labeled row as seen by the metrics aggregation of
`generate_reports_for_cohort` (lines 140–172): only the columns the three
matrices consume.  `κ` is the cohort key type (a calendar month or a product
title). -/
structure LRow (κ : Type) where
  customer_email : Option String
  total_sales : Option ℚ
  is_first_purchase : Bool
  cohort : Option κ
  months : Option Int
deriving DecidableEq, Repr

/-- Line 132: the monthly policy labels each row with the year-month of
`first_purchase_day` and its month offset. -/
def labelMonth (df : List PRow) : List (LRow (Nat × Nat)) :=
  df.map fun r =>
    { customer_email := r.customer_email
      total_sales := r.total_sales
      is_first_purchase := r.is_first_purchase
      cohort := r.first_purchase_day.map (fun d => (d.year, d.month))
      months := monthsSince r.day r.first_purchase_day }

/-- Lines 134–135: the first-product policy labels each row with
`str(first_product)` and its month offset. -/
def labelProduct (df : List PRow) : List (LRow String) :=
  df.map fun r =>
    { customer_email := r.customer_email
      total_sales := r.total_sales
      is_first_purchase := r.is_first_purchase
      cohort := some (optStr r.first_product)
      months := monthsSince r.day r.first_purchase_day }

section Aggregator

variable {κ : Type} [DecidableEq κ]

/-- The rows of cohort `c` (`groupby('cohort')` membership; missing cohort
keys belong to no group). -/
def cohortRows (df : List (LRow κ)) (c : κ) : List (LRow κ) :=
  df.filter (fun r => decide (r.cohort = some c))

/-- The rows of one `(cohort, months_since_first_purchase)` group. -/
def cellRows (df : List (LRow κ)) (c : κ) (m : Int) : List (LRow κ) :=
  df.filter (fun r => decide (r.cohort = some c ∧ r.months = some m))

/-- Line 143: `groupby(['cohort', 'months_since_first_purchase'])
['total_sales'].sum()` for one cell — pandas sums with `skipna`, so missing
sales contribute nothing, and an absent group reads as `0` after the
`fill_value=0` pivot. -/
def revenueCellRaw (df : List (LRow κ)) (c : κ) (m : Int) : ℚ :=
  qSum ((cellRows df c m).map (fun r => r.total_sales.getD 0))

/-- Line 148: `groupby('cohort')['customer_email'].nunique()` — the count of
distinct non-missing customer emails in the cohort. -/
def cohortSize (df : List (LRow κ)) (c : κ) : ℕ :=
  ((cohortRows df c).filterMap (·.customer_email)).dedup.length

/-- The month offsets at which cohort `c` has at least one grouped row
(each listed once). -/
def presentMonths (df : List (LRow κ)) (c : κ) : List Int :=
  ((cohortRows df c).filterMap (·.months)).dedup

/-- Line 145: `groupby('cohort')['total_sales'].cumsum()` read off at offset
`m` — the sum of the cohort's revenue cells over its present offsets `≤ m`
(the groupby orders each cohort's rows by ascending offset). -/
def cumCell (df : List (LRow κ)) (c : κ) (m : Int) : ℚ :=
  qSum (((presentMonths df c).filter (fun x => decide (x ≤ m))).map (revenueCellRaw df c))

/-- Whether the `(c, m)` group exists in `cohort_monthly_spend`. -/
def cellPresent (df : List (LRow κ)) (c : κ) (m : Int) : Bool :=
  !(cellRows df c m).isEmpty

/-- Whether cohort `c` contributes any row to `cohort_monthly_spend` (both
grouping keys present), i.e. appears in the pivoted LTV/revenue tables. -/
def cohortHasCell (df : List (LRow κ)) (c : κ) : Bool :=
  df.any (fun r => decide (r.cohort = some c) && r.months.isSome)

/-- Lines 153–160: one cell of the LTV matrix (after the `fill_value=0`
pivot and the concat with `cohort_sizes`): `cumulative_total_spent /
cohort_size` where the cohort has a grouped row at `m`, `0` at a grid cell
the cohort lacks, and missing (`NaN`) on the row of a cohort absent from the
pivot entirely. -/
def ltvCell (df : List (LRow κ)) (c : κ) (m : Int) : Option ℚ :=
  if cohortHasCell df c then
    some (if cellPresent df c m then qDivNat (cumCell df c m) (cohortSize df c) else 0)
  else none

/-- Lines 157–161: one cell of the revenue matrix. -/
def revenueCell (df : List (LRow κ)) (c : κ) (m : Int) : Option ℚ :=
  if cohortHasCell df c then some (revenueCellRaw df c m) else none

/-- The column set of the LTV/revenue pivots: offsets observed in any
cohort. -/
def monthCols (df : List (LRow κ)) : List Int :=
  (df.filterMap (fun r => if r.cohort.isSome then r.months else none)).dedup

/-- The cohorts of the run (`cohort_sizes` row index, line 148). -/
def cohortsOf (df : List (LRow κ)) : List κ :=
  (df.filterMap (·.cohort)).dedup

/-- Line 165: the rows of `(c, m)` with `is_repeat_purchase` set. -/
def repeatRows (df : List (LRow κ)) (c : κ) (m : Int) : List (LRow κ) :=
  df.filter (fun r => decide (r.cohort = some c ∧ r.months = some m) && !r.is_first_purchase)

/-- Line 165: distinct repeat-purchasing customers of one cell. -/
def repeatPurchasers (df : List (LRow κ)) (c : κ) (m : Int) : ℕ :=
  ((repeatRows df c m).filterMap (·.customer_email)).dedup.length

/-- Whether cohort `c` has any grouped repeat-purchase row, i.e. appears in
the `repeat_purchasers` table and hence in the rate pivot's index. -/
def hasRepeat (df : List (LRow κ)) (c : κ) : Bool :=
  df.any (fun r => decide (r.cohort = some c) && r.months.isSome && !r.is_first_purchase)

/-- The column set of the repeat-purchase-rate pivot: offsets with a repeat
purchase in some cohort. -/
def repeatMonthCols (df : List (LRow κ)) : List Int :=
  (df.filterMap
    (fun r => if r.cohort.isSome && !r.is_first_purchase then r.months else none)).dedup

/-- Lines 164–172: one cell of the repeat-purchase-rate matrix.  The pivot is
built from repeat rows only and then outer-concatenated with `cohort_sizes`,
so a cohort with no repeat purchase at all shows missing (`NaN`) in every
rate column, not `0`. -/
def repeatRateCell (df : List (LRow κ)) (c : κ) (m : Int) : Option ℚ :=
  if hasRepeat df c then
    some (qOfNats (repeatPurchasers df c m) (cohortSize df c))
  else none

end Aggregator

/-- The error outcomes of one run.  `keyError` is Python's `KeyError` from
selecting a column a frame does not have (line 70 on the zero-table frame);
`attributeError` is Python's `AttributeError` from the `.dt` accessor on a
column left with object dtype (line 105, reached when filtering leaves zero
rows: the in-place `.loc` assignments keep the empty `day` column as object
and `infer_objects` cannot convert an empty column).  `noValidRows` is
modelled from the spec (§7, `NoValidRowsError`); the source defines no such
class, so no code path produces it. -/
inductive PipelineError
  | keyError (col : String)
  | attributeError (col : String)
  | noValidRows
  | invalidCohortType
deriving DecidableEq, Repr

/-- The frame returned by `combine_csv_files` (lines 59–65): concatenating
zero tables leaves `pd.DataFrame()`, a frame without the canonical columns;
otherwise all rows of all tables, no deduplication. -/
inductive Frame
  | noColumns
  | withCols (rows : List RawRow)
deriving Repr

/-- `combine_csv_files` (lines 59–65). -/
def combineCsvFiles (tables : List (List RawRow)) : Frame :=
  if tables.isEmpty then .noColumns else .withCols tables.flatten

/-- `process_combined_data` at the run boundary: selecting the
`total_sales` column of a frame without columns raises `KeyError`
(line 70); on a columned frame that the filters of lines 70–79 empty, the
`day` column stays an empty object column and line 105's
`.dt.to_period('M')` raises `AttributeError`; only with at least one
surviving row does processing complete. -/
def processCombinedE : Frame → Except PipelineError (List PRow)
  | .noColumns => .error (.keyError "total_sales")
  | .withCols rows =>
    if (cleanRows rows).isEmpty then .error (.attributeError "day")
    else .ok (processCombined rows)

/-- `generate_and_upload_reports` up to the labeled datasets handed to the
aggregation (lines 177–195): the monthly pass runs first and its in-place
overwrite of `first_purchase_day` persists into the first-product pass. -/
def runPipeline (tables : List (List RawRow)) :
    Except PipelineError (List (LRow (Nat × Nat)) × List (LRow String)) :=
  (processCombinedE (combineCsvFiles tables)).map fun rows =>
    let monthly := generateMonthlyCohort rows
    (labelMonth monthly, labelProduct (generateFirstProductCohort monthly))

/-! Helper lemmas: the fill step -/

theorem ffillO_length (acc : Option α) (l : List (Option α)) :
    (ffillO acc l).length = l.length := by
  induction l generalizing acc with
  | nil => rfl
  | cons o rest ih => cases o <;> simp [ffillO, ih]

theorem bfillO_length (l : List (Option α)) : (bfillO l).length = l.length := by
  simp [bfillO, ffillO_length]

theorem fillCol_length (l : List (Option α)) : (fillCol l).length = l.length := by
  simp [fillCol, bfillO_length, ffillO_length]

theorem ffillO_getElem?_some (acc : Option α) (l : List (Option α)) (i : ℕ) (x : α)
    (hx : l[i]? = some (some x)) : (ffillO acc l)[i]? = some (some x) := by
  induction l generalizing acc i with
  | nil => simp at hx
  | cons o rest ih =>
    cases i with
    | zero => simp at hx; subst hx; simp [ffillO]
    | succ n =>
      simp only [List.getElem?_cons_succ] at hx
      cases o <;> simpa [ffillO] using ih _ n hx

theorem bfillO_getElem?_some (l : List (Option α)) (i : ℕ) (x : α)
    (hx : l[i]? = some (some x)) : (bfillO l)[i]? = some (some x) := by
  have hi : i < l.length := by
    by_contra hcon
    rw [List.getElem?_eq_none (by omega)] at hx
    exact Option.noConfusion hx
  have hrev : l.reverse[l.length - 1 - i]? = some (some x) := by
    rw [List.getElem?_reverse (by omega)]
    have : l.length - 1 - (l.length - 1 - i) = i := by omega
    rw [this]; exact hx
  have h2 := ffillO_getElem?_some none l.reverse (l.length - 1 - i) x hrev
  unfold bfillO
  have hlen : (ffillO none l.reverse).length = l.length := by
    rw [ffillO_length, List.length_reverse]
  rw [List.getElem?_reverse (by omega), hlen]
  have : l.length - 1 - i < l.length := by omega
  convert h2 using 2

theorem fillCol_getElem?_some (l : List (Option α)) (i : ℕ) (x : α)
    (hx : l[i]? = some (some x)) : (fillCol l)[i]? = some (some x) :=
  bfillO_getElem?_some _ i x (ffillO_getElem?_some none l i x hx)

/-! Helper lemmas: `setFills` positionally -/

theorem setFills_length (df : List PRow) : (setFills df).length = df.length := by
  simp [setFills, fillCol_length, List.length_zip]

theorem setFills_getElem (df : List PRow) (i : ℕ) (h : i < df.length) :
    (setFills df).get ⟨i, by rw [setFills_length]; exact h⟩ =
      { df.get ⟨i, h⟩ with
        first_purchase_day :=
          (fillCol (df.map (·.first_purchase_day))).get
            ⟨i, by rw [fillCol_length, List.length_map]; exact h⟩
        first_product :=
          (fillCol (df.map (·.first_product))).get
            ⟨i, by rw [fillCol_length, List.length_map]; exact h⟩ } := by
  simp only [List.get_eq_getElem]
  unfold setFills
  rw [List.getElem_map, List.getElem_zip, List.getElem_zip]

/-! Helper lemmas: `processCombined` positionally -/

theorem processCombined_length (input : List RawRow) :
    (processCombined input).length = (sortedRows input).length := by
  simp [processCombined, setFills_length]

theorem attachAnchor_toNRow (s : List NRow) (r : NRow) :
    (attachAnchor s r).toNRow = r := by
  unfold attachAnchor
  cases r.customer_email <;> rfl

theorem processCombined_getElem (input : List RawRow) (i : ℕ)
    (h : i < (sortedRows input).length) :
    (processCombined input).get ⟨i, by rw [processCombined_length]; exact h⟩ =
      { attachAnchor (sortedRows input) ((sortedRows input).get ⟨i, h⟩) with
        first_purchase_day :=
          (fillCol (((sortedRows input).map (attachAnchor (sortedRows input))).map
            (·.first_purchase_day))).get
              ⟨i, by rw [fillCol_length, List.length_map, List.length_map]; exact h⟩
        first_product :=
          (fillCol (((sortedRows input).map (attachAnchor (sortedRows input))).map
            (·.first_product))).get
              ⟨i, by rw [fillCol_length, List.length_map, List.length_map]; exact h⟩
        purchase_month :=
          ((sortedRows input).get ⟨i, h⟩).day.map (fun d => (d.year, d.month)) } := by
  simp only [List.get_eq_getElem]
  unfold processCombined
  simp only [List.getElem_map]
  have hsf := setFills_getElem ((sortedRows input).map (attachAnchor (sortedRows input))) i
    (by simpa using h)
  simp only [List.get_eq_getElem] at hsf
  rw [hsf]
  simp only [List.getElem_map]
  have hb := attachAnchor_toNRow (sortedRows input) ((sortedRows input)[i])
  congr 1
  exact congrArg (Option.map (fun d => (d.year, d.month))) (congrArg NRow.day hb)

theorem processCombined_map_toNRow (input : List RawRow) :
    (processCombined input).map (·.toNRow) = sortedRows input := by
  apply List.ext_getElem
  · rw [List.length_map, processCombined_length]
  · intro i h1 h2
    rw [List.getElem_map]
    have hpc := processCombined_getElem input i h2
    simp only [List.get_eq_getElem] at hpc
    rw [hpc]
    exact attachAnchor_toNRow (sortedRows input) ((sortedRows input)[i])

theorem attachAnchor_email (s : List NRow) (r : NRow) :
    (attachAnchor s r).customer_email = r.customer_email :=
  congrArg NRow.customer_email (attachAnchor_toNRow s r)

theorem attachAnchor_of_email (s : List NRow) (r : NRow) (e : String)
    (hx : r.customer_email = some e) :
    (attachAnchor s r).first_order_id = firstOrderIdOf s e ∧
    (attachAnchor s r).first_purchase_day = firstPurchaseDayOf s e ∧
    (attachAnchor s r).first_product = firstProductOf s e := by
  unfold attachAnchor
  rw [hx]
  exact ⟨rfl, rfl, rfl⟩

theorem mem_cleanRows (input : List RawRow) (r : NRow) (h : r ∈ cleanRows input) :
    r.day.isSome ∧ ¬(r.total_sales = some 0 ∧ r.product_title = none) := by
  unfold cleanRows at h
  have h2 := List.mem_filter.mp h
  have h3 := List.mem_filter.mp h2.1
  refine ⟨h2.2, ?_⟩
  have hb := h3.2
  simp only [Bool.not_eq_true', Bool.and_eq_false_iff, decide_eq_false_iff_not,
    Bool.not_eq_true, Option.isNone_eq_false_iff, Option.isSome_iff_ne_none] at hb
  rintro ⟨hs, ht⟩
  rcases hb with hb | hb
  · exact hb hs
  · exact hb (by simp [ht])

/-! Helper lemmas: the lexicographic sort order -/

theorem optDayKey_le_none (o : Option Date) (h : optDayKey none ≤ optDayKey o) :
    o = none := by
  cases o with
  | none => rfl
  | some d =>
    exfalso
    unfold optDayKey at h
    rw [Prod.Lex.le_iff] at h
    rcases h with h | ⟨h, _⟩
    · simp [Bool.lt_iff] at h
    · simp at h

theorem optDayKey_some_le (d x : Date) (h : optDayKey (some d) ≤ optDayKey (some x)) :
    d ≤ x := by
  unfold optDayKey at h
  rw [Prod.Lex.le_iff] at h
  rcases h with h | ⟨_, h2⟩
  · simp [Bool.lt_iff] at h
  · simpa using h2

theorem nrowLe_day_le {a b : NRow} (h : nrowLe a b)
    (he : a.customer_email = b.customer_email) :
    optDayKey a.day ≤ optDayKey b.day := by
  unfold nrowLe nrowKey at h
  rw [Prod.Lex.le_iff] at h
  rcases h with h | ⟨_, h2⟩
  · rw [he] at h
    exact absurd h (lt_irrefl _)
  · rw [Prod.Lex.le_iff] at h2
    rcases h2 with h2 | ⟨h2, _⟩
    · exact le_of_lt h2
    · exact le_of_eq h2

/-! Helper lemmas: minimum of a list of dates -/

theorem foldl_min_eq (as : List Date) (a d : Date) (hm : d = a ∨ d ∈ as)
    (hle : d ≤ a ∧ ∀ x ∈ as, d ≤ x) : as.foldl min a = d := by
  induction as generalizing a with
  | nil =>
    rcases hm with rfl | hm
    · rfl
    · simp at hm
  | cons x rest ih =>
    simp only [List.foldl_cons]
    apply ih
    · rcases hm with rfl | hm
      · left
        exact (min_eq_left (hle.2 x (by simp))).symm
      · rcases List.mem_cons.mp hm with rfl | hm
        · left
          exact (min_eq_right hle.1).symm
        · right
          exact hm
    · exact ⟨le_min hle.1 (hle.2 x (by simp)), fun y hy => hle.2 y (by simp [hy])⟩

theorem min?_eq_some_of_min (l : List Date) (d : Date) (hm : d ∈ l)
    (hle : ∀ x ∈ l, d ≤ x) : l.min? = some d := by
  cases l with
  | nil => simp at hm
  | cons a as =>
    show some (as.foldl min a) = some d
    congr 1
    apply foldl_min_eq as a d
    · rcases List.mem_cons.mp hm with rfl | hm
      · exact Or.inl rfl
      · exact Or.inr hm
    · exact ⟨hle a (by simp), fun x hx => hle x (by simp [hx])⟩

/-- On a sorted group whose rows all carry the same customer email, the
minimum of the `day` column (skipping missing values) is its first
non-missing `day` — the `transform('min')` of line 114 agrees with the
`groupby(...).first()` of line 85. -/
theorem sorted_group_minday (g : List NRow) (e : String)
    (hs : g.Pairwise nrowLe) (he : ∀ r ∈ g, r.customer_email = some e) :
    (g.filterMap (·.day)).min? = g.findSome? (·.day) := by
  induction g with
  | nil => rfl
  | cons r rest ih =>
    obtain ⟨hhead, htail⟩ := List.pairwise_cons.mp hs
    have hde : ∀ b ∈ rest, optDayKey r.day ≤ optDayKey b.day := fun b hb =>
      nrowLe_day_le (hhead b hb)
        ((he r (by simp)).trans (he b (by simp [hb])).symm)
    cases hr : r.day with
    | none =>
      have hall : ∀ b ∈ rest, b.day = none := fun b hb => by
        have hd := hde b hb
        rw [hr] at hd
        exact optDayKey_le_none _ hd
      rw [List.filterMap_cons_none hr]
      rw [List.filterMap_eq_nil_iff.mpr hall]
      rw [List.findSome?_cons, hr]
      exact (List.findSome?_eq_none_iff.mpr hall).symm
    | some d =>
      rw [List.filterMap_cons_some hr]
      rw [List.findSome?_cons, hr]
      apply min?_eq_some_of_min
      · simp
      · intro x hx
        rcases List.mem_cons.mp hx with rfl | hx
        · exact le_refl x
        · obtain ⟨b, hb, hbd⟩ := List.mem_filterMap.mp hx
          have hd := hde b hb
          rw [hr, hbd] at hd
          exact optDayKey_some_le _ _ hd

theorem dayList_map_toNRow (l : List PRow) (e : String) :
    ((l.filter (fun r => decide (r.customer_email = some e))).filterMap (·.day)) =
      (((l.map (·.toNRow)).filter
        (fun r => decide (r.customer_email = some e))).filterMap (·.day)) := by
  rw [List.filter_map, List.filterMap_map]
  rfl

theorem sortedRows_sorted (input : List RawRow) :
    (sortedRows input).Pairwise nrowLe :=
  List.sorted_insertionSort nrowLe (cleanRows input)

theorem groupOf_email (df : List NRow) (e : String) :
    ∀ r ∈ groupOf df e, r.customer_email = some e := fun _ hr =>
  of_decide_eq_true (List.mem_filter.mp hr).2

theorem mem_processCombined_base (input : List RawRow) (r : PRow)
    (hr : r ∈ processCombined input) : r.toNRow ∈ cleanRows input := by
  have h1 : r.toNRow ∈ (processCombined input).map (·.toNRow) :=
    List.mem_map_of_mem _ hr
  rw [processCombined_map_toNRow] at h1
  exact (List.mem_insertionSort nrowLe).mp h1

/-- Claim C3: every row of the final merged dataset (the output of
`process_combined_data`) carries a day that parsed to a valid date, and does
not have `total_sales == 0` together with a missing `product_title`; rows
violating either condition were dropped by the filters of lines 70–79,
before any aggregation. -/
theorem C3_filter_invariant (input : List RawRow) (r : PRow)
    (hr : r ∈ processCombined input) :
    r.day.isSome ∧ ¬(r.total_sales = some 0 ∧ r.product_title = none) :=
  mem_cleanRows input r.toNRow (mem_processCombined_base input r hr)

/-- The one-row upload used to witness C3. -/
def c3input : List RawRow :=
  [⟨some "a@x.com", some "1", some "2024-01-05", some "W", some "10.00"⟩]

/-- The processed row the pipeline produces for `c3input`. -/
def c3row : PRow :=
  ⟨⟨some "a@x.com", some "1", some ⟨2024, 1, 5⟩, some "W", mkRat 1000 100⟩, some "1",
    some ⟨2024, 1, 5⟩, some "W", true, some (2024, 1)⟩

/-- Witness for C3 on a concrete upload: the processed dataset contains a
row, and that row satisfies the invariant. -/
theorem C3_filter_invariant_witness :
    c3row ∈ processCombined c3input ∧
      (c3row.day.isSome ∧ ¬(c3row.total_sales = some 0 ∧ c3row.product_title = none)) :=
  ⟨by decide, C3_filter_invariant c3input c3row (by decide)⟩

/-- Claim C9: the monthly-cohort policy's recomputation of `first_purchase_day` as
the per-customer minimum of `day` (line 114) coincides, for every customer
email, with the `first_purchase_day` produced by the sort-and-first anchor
derivation of lines 82–86 — the two computations of the anchor day are
equivalent on the processed dataset. -/
theorem C9_min_matches_anchor (input : List RawRow) (e : String) :
    minDayOf (processCombined input) e = firstPurchaseDayOf (sortedRows input) e := by
  unfold minDayOf firstPurchaseDayOf
  rw [dayList_map_toNRow, processCombined_map_toNRow]
  exact sorted_group_minday (groupOf (sortedRows input) e) e
    (List.Pairwise.sublist (List.filter_sublist _) (sortedRows_sorted input))
    (groupOf_email _ e)

/-- Claim C5 (amended): the `.ffill().bfill()` of lines 98–99 never overwrites an
anchor value the merge already resolved, so every row of a customer whose
anchor fields resolved keeps exactly those values — but the fill itself runs
over the whole frame, not per customer group (see the counterexample). -/
theorem C5_fill_keeps_resolved (input : List RawRow) (e : String) (d : Date)
    (p : String) (r : PRow) (hr : r ∈ processCombined input)
    (he : r.customer_email = some e)
    (hd : firstPurchaseDayOf (sortedRows input) e = some d)
    (hp : firstProductOf (sortedRows input) e = some p) :
    r.first_purchase_day = some d ∧ r.first_product = some p := by
  obtain ⟨i, hi, heq⟩ := List.mem_iff_getElem.mp hr
  have hlen : i < (sortedRows input).length := by
    rw [← processCombined_length input]
    exact hi
  subst heq
  have hpc := processCombined_getElem input i hlen
  simp only [List.get_eq_getElem] at hpc
  rw [hpc] at he ⊢
  have he2 : ((sortedRows input)[i]).customer_email = some e := by
    rw [← attachAnchor_email (sortedRows input) ((sortedRows input)[i])]
    exact he
  obtain ⟨-, hfd, hfp⟩ :=
    attachAnchor_of_email (sortedRows input) ((sortedRows input)[i]) e he2
  have hdcol :
      (((sortedRows input).map (attachAnchor (sortedRows input))).map
        (·.first_purchase_day))[i]? = some (some d) := by
    rw [List.getElem?_map, List.getElem?_map, List.getElem?_eq_getElem hlen]
    simp [hfd, hd]
  have hpcol :
      (((sortedRows input).map (attachAnchor (sortedRows input))).map
        (·.first_product))[i]? = some (some p) := by
    rw [List.getElem?_map, List.getElem?_map, List.getElem?_eq_getElem hlen]
    simp [hfp, hp]
  have hdfill := fillCol_getElem?_some _ i _ hdcol
  have hpfill := fillCol_getElem?_some _ i _ hpcol
  have hbd : i < (fillCol (((sortedRows input).map (attachAnchor (sortedRows input))).map
      (·.first_purchase_day))).length := by
    rw [fillCol_length, List.length_map, List.length_map]
    exact hlen
  have hbp : i < (fillCol (((sortedRows input).map (attachAnchor (sortedRows input))).map
      (·.first_product))).length := by
    rw [fillCol_length, List.length_map, List.length_map]
    exact hlen
  rw [List.getElem?_eq_getElem hbd] at hdfill
  rw [List.getElem?_eq_getElem hbp] at hpfill
  exact ⟨Option.some.inj hdfill, Option.some.inj hpfill⟩


theorem perm_pair_cases {α : Type} {l : List α} {a b : α} (h : l.Perm [a, b]) :
    l = [a, b] ∨ l = [b, a] := by
  have hlen : l.length = 2 := by simpa using h.length_eq
  obtain ⟨x, y, rfl⟩ := List.length_eq_two.mp hlen
  have hmem : a ∈ [x, y] := h.mem_iff.mpr (by simp)
  rcases List.mem_cons.mp hmem with h1 | h1
  · subst h1
    left
    have h2 := h.cons_inv
    have h3 := List.perm_singleton.mp h2
    rw [h3]
  · have h1b : a = y := by simpa using h1
    subst h1b
    right
    have htrans := (List.Perm.swap a x []).symm.trans h
    have h3 := List.perm_singleton.mp htrans.cons_inv
    have hx : x = b := by simpa using h3
    rw [hx]

theorem nrowKey_lt_of_title_lt {r1 r2 : NRow} {e : String} {t1 t2 : String}
    (he1 : r1.customer_email = some e) (he2 : r2.customer_email = some e)
    (hd : r1.day = r2.day) (ht1 : r1.product_title = some t1)
    (ht2 : r2.product_title = some t2) (hlt : strKey t1 < strKey t2) :
    nrowKey r2 < nrowKey r1 := by
  unfold nrowKey
  rw [Prod.Lex.lt_iff]
  right
  constructor
  · show optKey r2.customer_email = optKey r1.customer_email
    rw [he1, he2]
  · rw [Prod.Lex.lt_iff]
    right
    constructor
    · show optDayKey r2.day = optDayKey r1.day
      rw [hd]
    · show titleKey r2.product_title < titleKey r1.product_title
      rw [ht1, ht2]
      unfold titleKey
      rw [Prod.Lex.lt_iff]
      right
      refine ⟨rfl, ?_⟩
      show OrderDual.toDual (strKey t2) < OrderDual.toDual (strKey t1)
      rw [OrderDual.toDual_lt_toDual]
      exact hlt

/-- Claim C2 (amended): the anchor is the per-column first NON-MISSING value of the
customer's sorted group (pandas `groupby.first` skips NA, so it is not
literally the first row when that row has a missing cell — see the
counterexample); in particular the descending tie-break holds: a customer
whose cleaned rows are exactly two rows with equal `day` and product titles
`t1 < t2` resolves `first_product` to the lexicographically larger `t2`. -/
theorem C2_tie_break (input : List RawRow) (e : String) (r1 r2 : NRow)
    (t1 t2 : String)
    (hg : (cleanRows input).filter (fun r => decide (r.customer_email = some e)) = [r1, r2])
    (hd : r1.day = r2.day) (ht1 : r1.product_title = some t1)
    (ht2 : r2.product_title = some t2) (hlt : strKey t1 < strKey t2) :
    firstProductOf (sortedRows input) e = some t2 := by
  have hperm : (groupOf (sortedRows input) e).Perm [r1, r2] := by
    unfold groupOf sortedRows
    rw [← hg]
    exact (List.perm_insertionSort nrowLe (cleanRows input)).filter _
  have hsorted : (groupOf (sortedRows input) e).Pairwise nrowLe :=
    List.Pairwise.sublist (List.filter_sublist _) (sortedRows_sorted input)
  have hr1 : r1 ∈ (cleanRows input).filter (fun r => decide (r.customer_email = some e)) := by
    rw [hg]
    simp
  have hr2 : r2 ∈ (cleanRows input).filter (fun r => decide (r.customer_email = some e)) := by
    rw [hg]
    simp
  have he1 : r1.customer_email = some e := of_decide_eq_true (List.mem_filter.mp hr1).2
  have he2 : r2.customer_email = some e := of_decide_eq_true (List.mem_filter.mp hr2).2
  have hklt := nrowKey_lt_of_title_lt he1 he2 hd ht1 ht2 hlt
  rcases perm_pair_cases hperm with hcase | hcase
  · exfalso
    rw [hcase] at hsorted
    exact absurd ((List.pairwise_cons.mp hsorted).1 r2 (by simp)) (not_le.mpr hklt)
  · unfold firstProductOf
    rw [hcase]
    rw [List.findSome?_cons, ht2]


/-- The upload whose customer's earliest row has a missing product title. -/
def c2input : List RawRow :=
  [⟨some "a@x.com", some "1", some "2024-01-05", none, some "5.00"⟩,
   ⟨some "a@x.com", some "2", some "2024-02-01", some "Zed", some "5.00"⟩]

/-- Counterexample for C2: the first row of the sorted group has a missing
`product_title`, yet the resolved `first_product` is `"Zed"`, taken from a
later row of a different day — the anchor is NOT exactly the first row of
the group (`groupby.first` skips NA per column). -/
theorem C2_counterexample :
    ((groupOf (sortedRows c2input) "a@x.com").head?.map (fun r => r.product_title)) =
      some none ∧
    firstProductOf (sortedRows c2input) "a@x.com" = some "Zed" := by
  exact ⟨by decide, by decide⟩

/-- The two-row same-day `"A"`/`"B"` upload of the tie-break scenario. -/
def c2winput : List RawRow :=
  [⟨some "a@x.com", some "1", some "2024-01-05", some "A", some "5.00"⟩,
   ⟨some "a@x.com", some "2", some "2024-01-05", some "B", some "6.00"⟩]

/-- Cleaned form of the first scenario row. -/
def c2wr1 : NRow := ⟨some "a@x.com", some "1", some ⟨2024, 1, 5⟩, some "A", mkRat 500 100⟩

/-- Cleaned form of the second scenario row. -/
def c2wr2 : NRow := ⟨some "a@x.com", some "2", some ⟨2024, 1, 5⟩, some "B", mkRat 600 100⟩

/-- Witness for the amended C2 on the `"A"`/`"B"` same-day scenario. -/
theorem C2_tie_break_witness :
    (cleanRows c2winput).filter (fun r => decide (r.customer_email = some "a@x.com")) =
      [c2wr1, c2wr2] ∧
    firstProductOf (sortedRows c2winput) "a@x.com" = some "B" :=
  ⟨by decide, C2_tie_break c2winput "a@x.com" c2wr1 c2wr2 "A" "B" (by decide) (by decide)
    (by decide) (by decide) (by decide)⟩


/-! Helper lemmas: the metrics aggregator -/

section AggregatorLemmas

variable {κ : Type} [DecidableEq κ]

theorem mem_cellRows_iff {df : List (LRow κ)} {c : κ} {m : Int} {r : LRow κ} :
    r ∈ cellRows df c m ↔ r ∈ df ∧ r.cohort = some c ∧ r.months = some m := by
  unfold cellRows
  rw [List.mem_filter, decide_eq_true_eq]

theorem cellPresent_iff {df : List (LRow κ)} {c : κ} {m : Int} :
    cellPresent df c m = true ↔ ∃ r ∈ df, r.cohort = some c ∧ r.months = some m := by
  unfold cellPresent
  rw [Bool.not_eq_true']
  constructor
  · intro h
    rcases hcr : cellRows df c m with _ | ⟨r, rest⟩
    · rw [hcr] at h
      simp at h
    · have hr : r ∈ cellRows df c m := by
        rw [hcr]
        simp
      obtain ⟨h1, h2, h3⟩ := mem_cellRows_iff.mp hr
      exact ⟨r, h1, h2, h3⟩
  · rintro ⟨r, h1, h2, h3⟩
    have hr : r ∈ cellRows df c m := mem_cellRows_iff.mpr ⟨h1, h2, h3⟩
    cases hcr : cellRows df c m with
    | nil => rw [hcr] at hr; simp at hr
    | cons a l => rfl

theorem cohortHasCell_iff {df : List (LRow κ)} {c : κ} :
    cohortHasCell df c = true ↔
      ∃ r ∈ df, r.cohort = some c ∧ r.months.isSome = true := by
  unfold cohortHasCell
  rw [List.any_eq_true]
  constructor
  · rintro ⟨r, hr, hp⟩
    rw [Bool.and_eq_true, decide_eq_true_eq] at hp
    exact ⟨r, hr, hp.1, hp.2⟩
  · rintro ⟨r, hr, h1, h2⟩
    exact ⟨r, hr, by rw [Bool.and_eq_true, decide_eq_true_eq]; exact ⟨h1, h2⟩⟩

theorem mem_presentMonths_iff {df : List (LRow κ)} {c : κ} {x : Int} :
    x ∈ presentMonths df c ↔ ∃ r ∈ df, r.cohort = some c ∧ r.months = some x := by
  unfold presentMonths cohortRows
  rw [List.mem_dedup, List.mem_filterMap]
  constructor
  · rintro ⟨r, hr, hm⟩
    obtain ⟨h1, h2⟩ := List.mem_filter.mp hr
    exact ⟨r, h1, of_decide_eq_true h2, hm⟩
  · rintro ⟨r, h1, h2, h3⟩
    exact ⟨r, List.mem_filter.mpr ⟨h1, decide_eq_true h2⟩, h3⟩

theorem revenueCellRaw_of_absent {df : List (LRow κ)} {c : κ} {m : Int}
    (h : ∀ r ∈ df, ¬(r.cohort = some c ∧ r.months = some m)) :
    revenueCellRaw df c m = 0 := by
  unfold revenueCellRaw
  have : cellRows df c m = [] := by
    unfold cellRows
    rw [List.filter_eq_nil_iff]
    intro r hr
    rw [decide_eq_true_eq]
    exact h r hr
  rw [this]
  rfl

theorem revenueCellRaw_nonneg {df : List (LRow κ)} {c : κ} {m : Int}
    (hs : ∀ r ∈ df, 0 ≤ r.total_sales.getD 0) :
    0 ≤ revenueCellRaw df c m := by
  unfold revenueCellRaw
  rw [qSum_eq_sum]
  apply List.sum_nonneg
  intro x hx
  obtain ⟨r, hr, rfl⟩ := List.mem_map.mp hx
  exact hs r (mem_cellRows_iff.mp hr).1

theorem presentMonths_nodup {df : List (LRow κ)} {c : κ} :
    (presentMonths df c).Nodup := by
  unfold presentMonths
  exact List.nodup_dedup _

theorem cumCell_eq_finset_sum {df : List (LRow κ)} {c : κ} {m : Int} :
    cumCell df c m =
      ∑ x ∈ ((presentMonths df c).filter (fun x => decide (x ≤ m))).toFinset,
        revenueCellRaw df c x := by
  unfold cumCell
  rw [qSum_eq_sum]
  rw [List.sum_toFinset _ (List.Nodup.filter _ presentMonths_nodup)]

end AggregatorLemmas


/-- One of the two rows of the C1 scenario upload. -/
def c1row1 : RawRow := ⟨some "a@x.com", some "1", some "2024-01-05", some "Widget", some "10.00"⟩

/-- The other row of the C1 scenario upload. -/
def c1row2 : RawRow := ⟨some "a@x.com", some "2", some "2024-02-10", some "Gadget", some "20.00"⟩

/-- The C1 scenario input: two tables, EACH containing both rows. -/
def c1tables : List (List RawRow) := [[c1row1, c1row2], [c1row1, c1row2]]

/-- The monthly-cohort labeled dataset of the C1 scenario. -/
def c1df : List (LRow (Nat × Nat)) :=
  labelMonth (generateMonthlyCohort (processCombined c1tables.flatten))

/-- Claim C1 (amended): a present LTV matrix cell is the cumulative sum of the
cohort's revenue cells over offsets `0..m` divided by the cohort size
(distinct customer emails); absent cells fill to `0`.  For the scenario of
two tables each holding both `a@x.com` rows, the merger keeps all four rows
(no deduplication), so the 2024-01 LTV row has column 0 = 20.00 and column
1 = 60.00 — not 10.00/30.00 — with `cohort_size` = 1. -/
theorem C1_ltv_formula :
    (∀ (κ : Type) [_inst : DecidableEq κ] (df : List (LRow κ)) (c : κ) (m : Int),
      (∀ r ∈ df, 0 ≤ r.months.getD 0) →
      cellPresent df c m = true →
      ltvCell df c m =
        some ((∑ x ∈ Finset.Icc (0 : Int) m, revenueCellRaw df c x) /
          (cohortSize df c : ℚ))) ∧
    (ltvCell c1df (2024, 1) 0 = some 20 ∧ ltvCell c1df (2024, 1) 1 = some 60 ∧
      cohortSize c1df (2024, 1) = 1) := by
  constructor
  · intro κ _inst df c m hmon hpres
    have hhc : cohortHasCell df c = true := by
      obtain ⟨r, h1, h2, h3⟩ := cellPresent_iff.mp hpres
      exact cohortHasCell_iff.mpr ⟨r, h1, h2, by rw [h3]; rfl⟩
    unfold ltvCell
    rw [if_pos hhc, if_pos hpres, qDivNat_eq_div]
    congr 1
    rw [cumCell_eq_finset_sum]
    congr 1
    apply Finset.sum_subset
    · intro x hx
      rw [List.mem_toFinset, List.mem_filter] at hx
      obtain ⟨hxm, hxle⟩ := hx
      rw [decide_eq_true_eq] at hxle
      obtain ⟨r, hr, hc2, hm2⟩ := mem_presentMonths_iff.mp hxm
      have h0 : 0 ≤ x := by
        have hg := hmon r hr
        rw [hm2] at hg
        exact hg
      rw [Finset.mem_Icc]
      exact ⟨h0, hxle⟩
    · intro x hx hnx
      apply revenueCellRaw_of_absent
      intro r hr hcon
      apply hnx
      rw [List.mem_toFinset, List.mem_filter]
      refine ⟨mem_presentMonths_iff.mpr ⟨r, hr, hcon.1, hcon.2⟩, ?_⟩
      rw [decide_eq_true_eq]
      exact (Finset.mem_Icc.mp hx).2
  · exact ⟨by decide, by decide, by decide⟩

/-- Counterexample for C1: on the stated two-table scenario the LTV cell for
cohort 2024-01 at offset 0 is 20.00 (two copies of the 10.00 order), not
the 10.00 the claim asserts. -/
theorem C1_counterexample :
    ltvCell c1df (2024, 1) 0 = some 20 ∧ some (20 : ℚ) ≠ some (10 : ℚ) :=
  ⟨by decide, by decide⟩

/-- Witness for the amended C1: the general formula applied to the scenario
dataset at a concrete present cell. -/
theorem C1_ltv_formula_witness :
    (∀ r ∈ c1df, 0 ≤ r.months.getD 0) ∧ cellPresent c1df (2024, 1) 0 = true ∧
    ltvCell c1df (2024, 1) 0 =
      some ((∑ x ∈ Finset.Icc (0 : Int) 0, revenueCellRaw c1df (2024, 1) x) /
        (cohortSize c1df (2024, 1) : ℚ)) :=
  ⟨by decide, by decide,
    C1_ltv_formula.1 (Nat × Nat) c1df (2024, 1) 0 (by decide) (by decide)⟩


/-- Upload for C4: cohort 2024-01 has a repeat purchase at offset 1, cohort
2024-02 has none at all. -/
def c4input : List RawRow :=
  [⟨some "a@x.com", some "1", some "2024-01-05", some "W", some "10.00"⟩,
   ⟨some "a@x.com", some "2", some "2024-02-10", some "G", some "5.00"⟩,
   ⟨some "b@x.com", some "3", some "2024-02-15", some "W", some "7.00"⟩]

/-- The monthly-cohort labeled dataset of the C4 counterexample. -/
def c4df : List (LRow (Nat × Nat)) :=
  labelMonth (generateMonthlyCohort (processCombined c4input))

/-- Claim C4 (amended): for a cohort with at least one repeat-purchase row, each
rate cell is the number of distinct customers having a repeat purchase at
that offset divided by cohort size (and a cell with no repeat purchasers
reads 0); but a cohort with NO repeat purchase anywhere is absent from the
rate pivot, so the outer concat with `cohort_sizes` leaves its rate cells
missing (`NaN`), not 0. -/
theorem C4_repeat_rate :
    (∀ (κ : Type) [_inst : DecidableEq κ] (df : List (LRow κ)) (c : κ) (m : Int),
      hasRepeat df c = true →
      (repeatRateCell df c m =
        some ((((repeatRows df c m).filterMap (fun r => r.customer_email)).toFinset.card : ℚ) /
          (cohortSize df c : ℚ)) ∧
        ∀ e : String,
          e ∈ ((repeatRows df c m).filterMap (fun r => r.customer_email)).toFinset ↔
            ∃ r ∈ df, r.customer_email = some e ∧ r.cohort = some c ∧
              r.months = some m ∧ r.is_first_purchase = false)) ∧
    (∀ (κ : Type) [_inst : DecidableEq κ] (df : List (LRow κ)) (c : κ) (m : Int),
      hasRepeat df c = false → repeatRateCell df c m = none) := by
  constructor
  · intro κ _inst df c m h
    constructor
    · unfold repeatRateCell
      rw [if_pos h, qOfNats_eq_div, List.card_toFinset]
      rfl
    · intro e
      rw [List.mem_toFinset, List.mem_filterMap]
      constructor
      · rintro ⟨r, hr, hre⟩
        unfold repeatRows at hr
        obtain ⟨hrdf, hcond⟩ := List.mem_filter.mp hr
        rw [Bool.and_eq_true, decide_eq_true_eq] at hcond
        obtain ⟨⟨hc, hm⟩, hnf⟩ := hcond
        rw [Bool.not_eq_true'] at hnf
        exact ⟨r, hrdf, hre, hc, hm, hnf⟩
      · rintro ⟨r, hrdf, hre, hc, hm, hnf⟩
        refine ⟨r, ?_, hre⟩
        unfold repeatRows
        rw [List.mem_filter]
        refine ⟨hrdf, ?_⟩
        rw [Bool.and_eq_true, decide_eq_true_eq, Bool.not_eq_true']
        exact ⟨⟨hc, hm⟩, hnf⟩
  · intro κ _inst df c m h
    unfold repeatRateCell
    rw [if_neg]
    rw [h]
    exact Bool.false_ne_true

/-- Counterexample for C4: offset 1 is a column of the rate matrix and cohort
2024-02 is one of its rows, but that cohort has no repeat purchase, so its
cell is missing — the claim would require 0. -/
theorem C4_counterexample :
    (2024, 2) ∈ cohortsOf c4df ∧ (1 : Int) ∈ repeatMonthCols c4df ∧
    hasRepeat c4df (2024, 2) = false ∧
    repeatRateCell c4df (2024, 2) 1 = none ∧ (none : Option ℚ) ≠ some 0 :=
  ⟨by decide, by decide, by decide, by decide, by decide⟩

/-- Witness for the amended C4 at the cohort that does have a repeat
purchase. -/
theorem C4_repeat_rate_witness :
    hasRepeat c4df (2024, 1) = true ∧
    repeatRateCell c4df (2024, 1) 1 =
      some ((((repeatRows c4df (2024, 1) 1).filterMap
          (fun r => r.customer_email)).toFinset.card : ℚ) /
        (cohortSize c4df (2024, 1) : ℚ)) :=
  ⟨by decide, (C4_repeat_rate.1 (Nat × Nat) c4df (2024, 1) 1 (by decide)).1⟩

/-- Upload for C8: cohort 2024-01 purchases at offsets 0 and 2 only, while
cohort 2024-02 supplies matrix column 1. -/
def c8input : List RawRow :=
  [⟨some "a@x.com", some "1", some "2024-01-05", some "W", some "10.00"⟩,
   ⟨some "a@x.com", some "2", some "2024-03-10", some "G", some "5.00"⟩,
   ⟨some "b@x.com", some "3", some "2024-02-15", some "W", some "7.00"⟩,
   ⟨some "b@x.com", some "4", some "2024-03-15", some "W", some "2.00"⟩]

/-- The monthly-cohort labeled dataset of the C8 counterexample. -/
def c8df : List (LRow (Nat × Nat)) :=
  labelMonth (generateMonthlyCohort (processCombined c8input))

/-- Claim C8 (amended): with non-negative sales, `avg_cumulative_total_spent` is
non-decreasing across a cohort's PRESENT month offsets; the pivot fills a
grid cell the cohort lacks with 0, which can sit below earlier values in
the matrix row (see the counterexample). -/
theorem C8_ltv_monotone :
    ∀ (κ : Type) [_inst : DecidableEq κ] (df : List (LRow κ)) (c : κ) (m₁ m₂ : Int),
      (∀ r ∈ df, 0 ≤ r.total_sales.getD 0) →
      cellPresent df c m₁ = true → cellPresent df c m₂ = true → m₁ ≤ m₂ →
      ∃ v₁ v₂, ltvCell df c m₁ = some v₁ ∧ ltvCell df c m₂ = some v₂ ∧ v₁ ≤ v₂ := by
  intro κ _inst df c m₁ m₂ hs h1 h2 hle
  have hhc : cohortHasCell df c = true := by
    obtain ⟨r, ha, hb, hc2⟩ := cellPresent_iff.mp h1
    exact cohortHasCell_iff.mpr ⟨r, ha, hb, by rw [hc2]; rfl⟩
  refine ⟨qDivNat (cumCell df c m₁) (cohortSize df c),
    qDivNat (cumCell df c m₂) (cohortSize df c), ?_, ?_, ?_⟩
  · unfold ltvCell
    rw [if_pos hhc, if_pos h1]
  · unfold ltvCell
    rw [if_pos hhc, if_pos h2]
  · rw [qDivNat_eq_div, qDivNat_eq_div]
    have hcum : cumCell df c m₁ ≤ cumCell df c m₂ := by
      rw [cumCell_eq_finset_sum, cumCell_eq_finset_sum]
      apply Finset.sum_le_sum_of_subset_of_nonneg
      · intro x hx
        rw [List.mem_toFinset, List.mem_filter] at hx
        rw [List.mem_toFinset, List.mem_filter]
        obtain ⟨ha, hb⟩ := hx
        rw [decide_eq_true_eq] at hb
        exact ⟨ha, decide_eq_true (le_trans hb hle)⟩
      · intro i _ _
        exact revenueCellRaw_nonneg hs
    rcases Nat.eq_zero_or_pos (cohortSize df c) with hz | hpos
    · rw [hz]
      simp
    · have hq : (0 : ℚ) < (cohortSize df c : ℚ) := by exact_mod_cast hpos
      exact (div_le_div_iff_of_pos_right hq).mpr hcum

/-- Counterexample for C8: all sales non-negative, offset 1 is a matrix column,
yet the 2024-01 LTV row goes 10 at offset 0 and 0 at offset 1 — the matrix
row is not non-decreasing. -/
theorem C8_counterexample :
    (∀ r ∈ c8df, 0 ≤ r.total_sales.getD 0) ∧
    (1 : Int) ∈ monthCols c8df ∧
    ltvCell c8df (2024, 1) 0 = some 10 ∧ ltvCell c8df (2024, 1) 1 = some 0 ∧
    ¬ ((10 : ℚ) ≤ 0) :=
  ⟨by decide, by decide, by decide, by decide, by decide⟩

/-- Witness for the amended C8 on cohort 2024-02, present at offsets 0
and 1. -/
theorem C8_ltv_monotone_witness :
    cellPresent c8df (2024, 2) 0 = true ∧ cellPresent c8df (2024, 2) 1 = true ∧
    (∃ v₁ v₂, ltvCell c8df (2024, 2) 0 = some v₁ ∧
      ltvCell c8df (2024, 2) 1 = some v₂ ∧ v₁ ≤ v₂) :=
  ⟨by decide, by decide,
    C8_ltv_monotone (Nat × Nat) c8df (2024, 2) 0 1 (by decide) (by decide) (by decide)
      (by decide)⟩


theorem processCombinedE_ne_noValidRows (f : Frame) :
    processCombinedE f ≠ Except.error PipelineError.noValidRows := by
  cases f with
  | noColumns =>
    intro h
    exact PipelineError.noConfusion (Except.error.inj h)
  | withCols rows =>
    cases hc : (cleanRows rows).isEmpty with
    | true => simp [processCombinedE, hc]
    | false => simp [processCombinedE, hc]

/-- Claim C6 (amended): the run does fail with no output tables both with
zero raw tables (missing-column `KeyError` at line 70) and when filtering
leaves zero rows (`AttributeError` from line 105's `.dt` on the empty
object `day` column) — but never with a `NoValidRowsError`, a class the
source does not define; a run whose rows survive but yield no cohort keys
(e.g. all emails missing) still succeeds with empty cohorts, so the two
situations stay distinct in effect, not by a named error type. -/
theorem C6_empty_input :
    runPipeline [] = Except.error (PipelineError.keyError "total_sales") ∧
    (∀ tables : List (List RawRow),
      processCombinedE (combineCsvFiles tables) ≠
        Except.error PipelineError.noValidRows) ∧
    runPipeline [[⟨some "x@y.com", some "1", some "not-a-date", some "W", some "1.00"⟩]] =
      Except.error (PipelineError.attributeError "day") ∧
    runPipeline [[⟨none, some "1", some "2024-01-05", some "W", some "1.00"⟩]] =
      Except.ok ([⟨none, some 1, false, none, none⟩], []) ∧
    cohortsOf [(⟨none, some 1, false, none, none⟩ : LRow (Nat × Nat))] = [] :=
  ⟨rfl, fun tables => processCombinedE_ne_noValidRows (combineCsvFiles tables),
    rfl, rfl, rfl⟩

/-- Counterexample for C6: the zero-table run fails with the missing-column
error, which is not a `NoValidRowsError`. -/
theorem C6_counterexample :
    processCombinedE (combineCsvFiles []) =
      Except.error (PipelineError.keyError "total_sales") ∧
    (Except.error (PipelineError.keyError "total_sales") :
      Except PipelineError (List PRow)) ≠ Except.error PipelineError.noValidRows := by
  refine ⟨rfl, ?_⟩
  intro h
  exact PipelineError.noConfusion (Except.error.inj h)

theorem sum_getD_filter_isSome {κ : Type} [DecidableEq κ] (l : List (LRow κ)) :
    ((l.filter (fun r => r.total_sales.isSome)).map (fun r => r.total_sales.getD 0)).sum =
      (l.map (fun r => r.total_sales.getD 0)).sum := by
  induction l with
  | nil => rfl
  | cons r rest ih =>
    cases hts : r.total_sales with
    | some q => simp [List.filter_cons, hts, ih]
    | none => simp [List.filter_cons, hts, ih]

/-- First row of the C7 upload. -/
def c7raw1 : RawRow := ⟨some "a@x.com", some "1", some "2024-01-05", some "W", some "10.00"⟩

/-- Second row of the C7 upload: its `total_sales` text does not parse. -/
def c7raw2 : RawRow := ⟨some "a@x.com", some "2", some "2024-02-10", some "G", some "oops"⟩

/-- The C7 upload. -/
def c7input : List RawRow := [c7raw1, c7raw2]

/-- The monthly-cohort labeled dataset of the C7 scenario. -/
def c7df : List (LRow (Nat × Nat)) :=
  labelMonth (generateMonthlyCohort (processCombined c7input))

/-- Claim C7 (amended): an unparsable `total_sales` is coerced to missing without
an error, and the row is NOT dropped: it stays in the cleaned dataset
whenever its date is valid (its missing amount merely contributes nothing
to revenue sums) — it still feeds cohort membership, month-offset columns
and repeat-purchase counts (see the counterexample). -/
theorem C7_coercion :
    (∀ (r : RawRow) (s : String), r.total_sales = some s → parseNumeric s = none →
      (toNRow r).total_sales = none) ∧
    (∀ (input : List RawRow) (r : RawRow), r ∈ input → (toNRow r).day.isSome →
      (toNRow r).total_sales = none → toNRow r ∈ cleanRows input) ∧
    (∀ (κ : Type) [_inst : DecidableEq κ] (df : List (LRow κ)) (c : κ) (m : Int),
      revenueCellRaw (df.filter (fun r => r.total_sales.isSome)) c m =
        revenueCellRaw df c m) := by
  refine ⟨?_, ?_, ?_⟩
  · intro r s hs hp
    show r.total_sales.bind parseNumeric = none
    rw [hs]
    exact hp
  · intro input r hrm hday hsal
    unfold cleanRows
    apply List.mem_filter.mpr
    refine ⟨List.mem_filter.mpr ⟨List.mem_map_of_mem _ hrm, ?_⟩, hday⟩
    rw [hsal]
    rfl
  · intro κ _inst df c m
    unfold revenueCellRaw cellRows
    rw [List.filter_comm, qSum_eq_sum, qSum_eq_sum]
    exact sum_getD_filter_isSome _

/-- Counterexample for C7: the unparsable-sales row survives processing (its
`total_sales` is missing, not dropped) and the repeat-purchase-rate matrix
gains a column at offset 1 with value 1 from exactly that row — the row
does contribute to output aggregates. -/
theorem C7_counterexample :
    (processCombined c7input).map (fun r => r.total_sales) = [some 10, none] ∧
    repeatRateCell c7df (2024, 1) 1 = some 1 ∧
    (1 : Int) ∈ repeatMonthCols c7df :=
  ⟨by decide, by decide, by decide⟩

/-- Witness for the amended C7 on the concrete unparsable-sales row. -/
theorem C7_coercion_witness :
    parseNumeric "oops" = none ∧ (toNRow c7raw2).total_sales = none ∧
    toNRow c7raw2 ∈ cleanRows c7input ∧
    revenueCellRaw (c7df.filter (fun r => r.total_sales.isSome)) (2024, 1) 1 =
      revenueCellRaw c7df (2024, 1) 1 :=
  ⟨by decide, C7_coercion.1 c7raw2 "oops" rfl (by decide),
    C7_coercion.2.1 c7input c7raw2 (by decide) (by decide) (by decide),
    C7_coercion.2.2 (Nat × Nat) c7df (2024, 1) 1⟩

/-- Claim C10: under the first-product policy, only rows with a missing
`customer_email` are excluded; every remaining row is labeled with
`str(first_product)` as its cohort key, so a customer whose resolved
`first_product` is missing lands in the literal `"nan"` cohort rather than
being dropped. -/
theorem C10_nan_cohort (df : List PRow) :
    (∀ r ∈ df, r.customer_email.isSome →
      ∃ lr ∈ labelProduct (generateFirstProductCohort df),
        lr.customer_email = r.customer_email ∧
        lr.cohort = some (optStr r.first_product) ∧
        (r.first_product = none → lr.cohort = some "nan")) ∧
    (∀ lr ∈ labelProduct (generateFirstProductCohort df),
      lr.customer_email.isSome = true ∧ lr.cohort.isSome = true) := by
  constructor
  · intro r hr hsome
    have h1 : r ∈ df.filter (fun x => x.customer_email.isSome) :=
      List.mem_filter.mpr ⟨hr, hsome⟩
    have h2 : r ∈ List.insertionSort prowLe2 (df.filter (fun x => x.customer_email.isSome)) :=
      (List.mem_insertionSort _).mpr h1
    have h3 : ({ r with first_product := some (optStr r.first_product) } : PRow) ∈
        generateFirstProductCohort df :=
      List.mem_map_of_mem _ h2
    refine ⟨_, List.mem_map_of_mem _ h3, rfl, rfl, ?_⟩
    intro h0
    rw [h0]
    rfl
  · intro lr hlr
    obtain ⟨x, hx, rfl⟩ := List.mem_map.mp hlr
    obtain ⟨y, hy, rfl⟩ := List.mem_map.mp hx
    have hy2 : y ∈ df.filter (fun x => x.customer_email.isSome) :=
      (List.mem_insertionSort _).mp hy
    exact ⟨(List.mem_filter.mp hy2).2, rfl⟩

/-- A processed dataset for the C10 witness: the lone real customer has no
resolved `first_product`. -/
def c10row1 : PRow :=
  ⟨⟨some "a@x.com", some "1", some ⟨2024, 1, 5⟩, none, some 5⟩, some "1",
    some ⟨2024, 1, 5⟩, none, true, some (2024, 1)⟩

/-- The C10 witness dataset: `c10row1` plus a row with a missing email. -/
def c10df : List PRow :=
  [c10row1,
   ⟨⟨none, some "2", some ⟨2024, 1, 6⟩, some "W", some 5⟩, none, none, none, false,
     some (2024, 1)⟩]

/-- Witness for C10: the `"nan"`-cohort assignment on a concrete dataset. -/
theorem C10_nan_cohort_witness :
    c10row1 ∈ c10df ∧ c10row1.customer_email.isSome = true ∧
    (∃ lr ∈ labelProduct (generateFirstProductCohort c10df),
      lr.customer_email = c10row1.customer_email ∧
      lr.cohort = some (optStr c10row1.first_product) ∧
      (c10row1.first_product = none → lr.cohort = some "nan")) :=
  ⟨by decide, by decide, (C10_nan_cohort c10df).1 c10row1 (by decide) (by decide)⟩

/-- The C5 upload: customer `b@x.com` has only a title-less row, so its
anchor `first_product` is unresolved while `a@x.com` resolves `"T"`. -/
def c5input : List RawRow :=
  [⟨some "a@x.com", some "1", some "2024-01-05", some "T", some "5.00"⟩,
   ⟨some "b@x.com", some "2", some "2024-01-06", none, some "5.00"⟩]

/-- Counterexample for C5: `b@x.com` resolves no `first_product` of its own
(and does resolve `first_purchase_day`, so the claim covers it), yet after
the global `.ffill().bfill()` its row carries `"T"` — a value that
originates in `a@x.com`'s group. -/
theorem C5_counterexample :
    firstProductOf (sortedRows c5input) "b@x.com" = none ∧
    (processCombined c5input).map
        (fun r => (r.customer_email, r.first_purchase_day, r.first_product)) =
      [(some "a@x.com", some ⟨2024, 1, 5⟩, some "T"),
       (some "b@x.com", some ⟨2024, 1, 6⟩, some "T")] :=
  ⟨by decide, by decide⟩

/-- The processed row of `a@x.com` in the C5 upload. -/
def c5arow : PRow :=
  ⟨⟨some "a@x.com", some "1", some ⟨2024, 1, 5⟩, some "T", mkRat 500 100⟩, some "1",
    some ⟨2024, 1, 5⟩, some "T", true, some (2024, 1)⟩

/-- Witness for the amended C5: a fully resolved customer keeps exactly its
own anchor values through the fill. -/
theorem C5_fill_keeps_resolved_witness :
    c5arow ∈ processCombined c5input ∧
    c5arow.first_purchase_day = some ⟨2024, 1, 5⟩ ∧ c5arow.first_product = some "T" :=
  ⟨by decide,
    (C5_fill_keeps_resolved c5input "a@x.com" ⟨2024, 1, 5⟩ "T" c5arow (by decide)
      (by decide) (by decide) (by decide)).1,
    (C5_fill_keeps_resolved c5input "a@x.com" ⟨2024, 1, 5⟩ "T" c5arow (by decide)
      (by decide) (by decide) (by decide)).2⟩

end Cohort
